import Mathlib

/-!
Shallow embedding of the bounded multi-round tool-orchestration loop of
`backend/ai_generator.py` (class `AIGenerator`), together with theorems
checking the specification claims about it.

Modelling conventions:
* A completion-service response is a record of a stop-reason string and an
  ordered list of content blocks (text blocks, tool-invocation-request
  blocks, or blocks of some other kind).
* The completion service itself is modelled as a function `svc : Nat → ApiResponse`
  giving the response to the k-th `messages.create` invocation (0-based),
  so that theorems quantify over every possible sequence of responses.
* A tool manager is a function from tool name and keyword input to either a
  textual result or an exception message (`Except String String`), covering
  every possible sequence of tool outcomes.
* The Python `ValueError`s raised by `_extract_text_from_response` are
  embedded as a structured error type `ExtractError` recording exactly the
  data the two distinct error messages carry.
* Runs are observable through a trace: the list of `messages.create`
  invocations made (each with the request messages, system string, the
  tools / tool_choice parameters sent, and the response received) and the
  list of tool executions attempted.
-/

deriving instance DecidableEq for Except

/-- Keyword arguments passed to a tool (`**content_block.input`). -/
def ToolInput : Type := List (String × String)

deriving instance DecidableEq for ToolInput

/-- A content block of a completion-service response: a plain text block, a
tool-invocation-request block (unique id, tool name, input payload), or a
block of some other kind. -/
inductive ContentBlock
  | text (s : String)
  | toolUse (id name : String) (input : ToolInput)
  | other (ty : String)
deriving DecidableEq

/-- The `type` attribute of a content block. -/
def ContentBlock.type : ContentBlock → String
  | .text _ => "text"
  | .toolUse _ _ _ => "tool_use"
  | .other ty => ty

/-- A completion-service response: stop-reason discriminator and ordered
content blocks. -/
structure ApiResponse where
  stop_reason : String
  content : List ContentBlock
deriving DecidableEq

/-- The structured content of the `ValueError`s raised by
`AIGenerator._extract_text_from_response`: `noContent` is the error
"Response contains no content blocks" raised when the content list is empty;
`noText` is the error "No text content found in response. Stop reason: ...,
Content blocks: ..." carrying the stop-reason and the list of block kinds. -/
inductive ExtractError
  | noContent
  | noText (stopReason : String) (blockTypes : List String)
deriving DecidableEq

/-- The text of the first content block of type `text`, if any
(the `for block in response.content` search loop). -/
def firstTextBlock : List ContentBlock → Option String
  | [] => none
  | ContentBlock.text s :: _ => some s
  | _ :: rest => firstTextBlock rest

/-- The list of block kinds present
(`[getattr(block, "type", "unknown") for block in response.content]`). -/
def blockTypes (content : List ContentBlock) : List String :=
  content.map ContentBlock.type

/-- Embedding of `AIGenerator._extract_text_from_response`: error `noContent`
when the content list is empty, otherwise the first text block, otherwise
error `noText` with the stop-reason and the block kinds. -/
def extractTextFromResponse (response : ApiResponse) : Except ExtractError String :=
  if response.content.isEmpty then
    Except.error ExtractError.noContent
  else
    match firstTextBlock response.content with
    | some t => Except.ok t
    | none =>
        Except.error (ExtractError.noText response.stop_reason (blockTypes response.content))

/-- The static system prompt `AIGenerator.SYSTEM_PROMPT` (carried through the
embedding as request data; no claim inspects its text). -/
def SYSTEM_PROMPT : String :=
  " You are an AI assistant specialized in course materials and educational content with access to comprehensive tools for course information.

Tool Usage:
- **get_course_outline**: Use for questions about course structure, syllabus, lesson lists, or course overview
  - Returns: course title, course link, and complete list of lessons (number and title)
  - When to use: \"What\x27s the outline?\", \"What lessons are included?\", \"Course structure?\", \"What\x27s covered?\"
- **search_course_content**: Use for questions about specific course content or detailed educational materials
  - Returns: relevant content chunks with context
  - When to use: Questions about specific concepts, topics, or lesson content
- **Multi-tool strategy**: You can make multiple tool calls across sequential rounds
  - Use multiple rounds when initial results need refinement or additional context
  - Useful for comparisons, multi-part questions, or gathering information from different courses/lessons
  - Each round allows you to reason about previous results before making the next tool call
- Synthesize tool results into accurate, fact-based responses
- If tool yields no results, state this clearly without offering alternatives

Response Protocol:
- **General knowledge questions**: Answer using existing knowledge without tools
- **Course outline/structure questions**: Use get_course_outline, then present the course title, course link, and all lessons
- **Course content questions**: Use search_course_content, then answer
- **No meta-commentary**:
 - Provide direct answers only — no reasoning process, tool explanations, or question-type analysis
 - Do not mention \"based on the tool results\" or \"I searched for\"

All responses must be:
1. **Brief, Concise and focused** - Get to the point quickly
2. **Educational** - Maintain instructional value
3. **Clear** - Use accessible language
4. **Example-supported** - Include relevant examples when they aid understanding
Provide only the direct answer to what was asked.
"

/-- Embedding of `AIGenerator._build_system_content`: append the previous
conversation when one is supplied and non-empty (Python truthiness of the
optional string). -/
def buildSystemContent (conversationHistory : Option String) : String :=
  match conversationHistory with
  | some h => if h ≠ "" then SYSTEM_PROMPT ++ "\n\nPrevious conversation:\n" ++ h else SYSTEM_PROMPT
  | none => SYSTEM_PROMPT

/-- The tool manager: `execute_tool(name, **input)` either returns a textual
result or raises an exception with the given message. -/
structure ToolManager where
  execTool : String → ToolInput → Except String String

/-- One entry of the tool-results list built by `_execute_tools`:
`{"type": "tool_result", "tool_use_id": ..., "content": ...}`. -/
structure ToolResult where
  type : String
  tool_use_id : String
  content : String
deriving DecidableEq

/-- The per-block body of the `for content_block in response.content` loop of
`AIGenerator._execute_tools`: a `tool_use` block yields one `tool_result`
entry whose content is the tool result, or the textual error
"Error executing tool <name>: <message>" when execution raises; any other
block yields no entry. -/
def toolResultFor (tm : ToolManager) : ContentBlock → Option ToolResult
  | ContentBlock.toolUse id name input =>
      some { type := "tool_result", tool_use_id := id,
             content :=
               match tm.execTool name input with
               | Except.ok r => r
               | Except.error e => "Error executing tool " ++ name ++ ": " ++ e }
  | _ => none

/-- Embedding of `AIGenerator._execute_tools`: one `tool_result` entry per
`tool_use` block of the response content, in content order. -/
def executeTools (response : ApiResponse) (tm : ToolManager) : List ToolResult :=
  response.content.filterMap (toolResultFor tm)

/-- The tool executions attempted for a response: one `(name, input)` pair per
`tool_use` block, in content order (attempted also when the execution
raises). -/
def toolInvocations (response : ApiResponse) : List (String × ToolInput) :=
  response.content.filterMap fun b =>
    match b with
    | ContentBlock.toolUse _ name input => some (name, input)
    | _ => none

/-- The content of a conversation turn: the initial plain-text user query, the
raw content blocks of an assistant response, or a synthesized list of tool
results. -/
inductive MessageContent
  | textContent (s : String)
  | blocks (bs : List ContentBlock)
  | toolResults (rs : List ToolResult)
deriving DecidableEq

/-- A conversation turn: role (`"user"` or `"assistant"`) and content. -/
structure Message where
  role : String
  content : MessageContent
deriving DecidableEq

/-- One `messages.create` invocation as observed on the trace: the request
messages, the system string, the `tools` parameter sent (`none` when the
parameter is absent from the request), the `tool_choice` parameter sent
(`none` when absent), and the response received. -/
structure ApiCall where
  messages : List Message
  system : String
  toolsSent : Option (List String)
  toolChoice : Option String
  response : ApiResponse
deriving DecidableEq

/-- Python truthiness of the optional `tools` argument: `if tools:` holds
exactly when a non-empty list was supplied. -/
def toolsTruthy : Option (List String) → Bool
  | some l => !l.isEmpty
  | none => false

/-- The `messages.create` invocation made inside the round loop: tools and an
automatic tool-choice directive are included exactly when `tools` is truthy. -/
def mkCallRecord (messages : List Message) (sys : String)
    (tools : Option (List String)) (response : ApiResponse) : ApiCall :=
  { messages := messages, system := sys,
    toolsSent := if toolsTruthy tools then tools else none,
    toolChoice := if toolsTruthy tools then some "auto" else none,
    response := response }

/-- The conversation update of one tool round (lines 210-218 of the source):
append the assistant turn carrying the raw response content, then append the
synthesized user turn carrying the tool results — the latter only when the
tool-results list is non-empty (`if tool_results:`). -/
def appendRound (msgs : List Message) (response : ApiResponse) (tm : ToolManager) :
    List Message :=
  let messages2 := msgs ++
    [{ role := "assistant", content := MessageContent.blocks response.content }]
  let toolResults := executeTools response tm
  if toolResults.isEmpty then messages2
  else messages2 ++ [{ role := "user", content := MessageContent.toolResults toolResults }]

/-- How one run of `generate_response` ends relative to the round loop:
either an early `return self._extract_text_from_response(response)` from
inside the loop (whose extraction error, if any, propagates to the caller),
or fall-through to `_final_synthesis` with the accumulated conversation. -/
inductive LoopOutcome
  | earlyReturn (r : Except ExtractError String)
  | exhausted (finalMessages : List Message)
deriving DecidableEq

/-- Embedding of the `for round_num in range(1, max_rounds + 1)` loop of
`AIGenerator.generate_response`. `fuel` is the number of remaining loop
iterations; `calls` and `execLog` accumulate the trace of `messages.create`
invocations and attempted tool executions. Each iteration makes one
completion-service call; on `stop_reason == "tool_use"` with a tool manager
present it appends the assistant turn, executes the tools, appends the
synthesized user turn only when the tool-results list is non-empty
(`if tool_results:`), and continues; otherwise it returns the extracted text. -/
def roundLoop (svc : Nat → ApiResponse) (tools : Option (List String))
    (toolManager : Option ToolManager) (sys : String) :
    Nat → List Message → List ApiCall → List (String × ToolInput) →
      List ApiCall × List (String × ToolInput) × LoopOutcome
  | 0, messages, calls, execLog => (calls, execLog, LoopOutcome.exhausted messages)
  | Nat.succ fuel, messages, calls, execLog =>
    let response := svc calls.length
    let call := mkCallRecord messages sys tools response
    if response.stop_reason = "tool_use" then
      match toolManager with
      | some tm =>
          roundLoop svc tools toolManager sys fuel (appendRound messages response tm)
            (calls ++ [call]) (execLog ++ toolInvocations response)
      | none =>
          (calls ++ [call], execLog, LoopOutcome.earlyReturn (extractTextFromResponse response))
    else
      (calls ++ [call], execLog, LoopOutcome.earlyReturn (extractTextFromResponse response))

/-- The fixed user-facing fallback message returned by
`AIGenerator._final_synthesis` when text extraction fails. -/
def fallbackMessage : String :=
  "I\x27ve searched through the course materials but need more tool calls to fully answer your question. Please try asking a more specific question, or break your question into smaller parts."

/-- The text `_final_synthesis` returns for a given final response: the
extracted text, or the fixed fallback message when extraction raises
`ValueError`. -/
def synthText (response : ApiResponse) : String :=
  match extractTextFromResponse response with
  | Except.ok t => t
  | Except.error _ => fallbackMessage

/-- Embedding of `AIGenerator._final_synthesis`: one more `messages.create`
invocation whose request contains no `tools` and no `tool_choice` parameter,
returning the extracted text or the fallback message. -/
def finalSynthesis (svc : Nat → ApiResponse) (callIndex : Nat)
    (messages : List Message) (sys : String) : ApiCall × String :=
  let response := svc callIndex
  ({ messages := messages, system := sys, toolsSent := none,
     toolChoice := none, response := response },
   synthText response)

/-- The observable outcome of one call to `generate_response`: the trace of
`messages.create` invocations, the trace of attempted tool executions, and
the returned string (or the propagated extraction error). -/
structure RunResult where
  calls : List ApiCall
  toolExecs : List (String × ToolInput)
  result : Except ExtractError String
deriving DecidableEq

/-- The initial conversation: a single user turn containing the query
(`messages = [{"role": "user", "content": query}]`). -/
def initialMessages (query : String) : List Message :=
  [{ role := "user", content := MessageContent.textContent query }]

/-- Embedding of `AIGenerator.generate_response`: build the system content
and the initial single-user-turn conversation, run the round loop for
`max(0, maxRounds)` iterations (`range(1, max_rounds + 1)`), and on
fall-through make the final-synthesis call. -/
def generateResponse (svc : Nat → ApiResponse) (query : String)
    (conversationHistory : Option String) (tools : Option (List String))
    (toolManager : Option ToolManager) (maxRounds : Int) : RunResult :=
  let sys := buildSystemContent conversationHistory
  match roundLoop svc tools toolManager sys maxRounds.toNat (initialMessages query) [] [] with
  | (calls, execLog, LoopOutcome.earlyReturn r) =>
      { calls := calls, toolExecs := execLog, result := r }
  | (calls, execLog, LoopOutcome.exhausted finalMessages) =>
      let fc := finalSynthesis svc calls.length finalMessages sys
      { calls := calls ++ [fc.1], toolExecs := execLog, result := Except.ok fc.2 }

/-! ## Observation predicates and concrete fixtures -/

/-- The source tool name of a content block, when the block is a
tool-invocation request. -/
def toolUseIdOf : ContentBlock → Option String
  | ContentBlock.toolUse id _ _ => some id
  | _ => none

/-- Whether a content list contains at least one tool-invocation-request
block. -/
def hasToolUseBlock (content : List ContentBlock) : Bool :=
  content.any fun b =>
    match b with
    | ContentBlock.toolUse _ _ _ => true
    | _ => false

/-- Expected role for a parity: `true` stands for a user position, `false`
for an assistant position. -/
def roleOf (b : Bool) : String :=
  if b then "user" else "assistant"

/-- Strict role alternation of a conversation, starting at the parity `b`. -/
def alternatingFrom (b : Bool) : List Message → Bool
  | [] => true
  | m :: ms => (m.role == roleOf b) && alternatingFrom (!b) ms

/-- Parity reached after crossing `n` turns, starting from parity `b`. -/
def parityFlip (b : Bool) (n : Nat) : Bool :=
  if n % 2 = 0 then b else !b

/-- Whether a conversation avoids two adjacent assistant turns. -/
def noTwoConsecutiveAssistant : List Message → Bool
  | m1 :: m2 :: rest =>
      !(m1.role == "assistant" && m2.role == "assistant") &&
        noTwoConsecutiveAssistant (m2 :: rest)
  | _ => true

/-- Whether the request conversation of every completion-service call of a
run strictly alternates user and assistant turns (starting with user). -/
def allCallsAlternate (r : RunResult) : Bool :=
  r.calls.all fun c => alternatingFrom true c.messages

/-- Per call of a run, whether the request conversation of that call avoids two
adjacent assistant turns. -/
def callsAssistantCheck (r : RunResult) : List Bool :=
  r.calls.map fun c => noTwoConsecutiveAssistant c.messages

/-- Per call of a run, the `tools` and `tool_choice` request parameters. -/
def callsToolParams (r : RunResult) : List (Option (List String) × Option String) :=
  r.calls.map fun c => (c.toolsSent, c.toolChoice)

/-- Fixture: a terminal response with one text block. -/
def respTextW : ApiResponse :=
  { stop_reason := "end_turn", content := [ContentBlock.text "hello"] }

/-- Fixture: a completion service that always answers `respTextW`. -/
def svcTextW : Nat → ApiResponse := fun _ => respTextW

/-- Fixture: a tool-use response with a single tool-invocation-request
block. -/
def respToolW : ApiResponse :=
  { stop_reason := "tool_use",
    content := [ContentBlock.toolUse "id1" "search" [("q", "x")]] }

/-- Fixture: a completion service that always answers `respToolW`. -/
def svcToolW : Nat → ApiResponse := fun _ => respToolW

/-- Fixture: a completion service whose responses signal tool use while
carrying no content blocks at all. -/
def svcEmptyToolW : Nat → ApiResponse :=
  fun _ => { stop_reason := "tool_use", content := [] }

/-- Fixture: a tool manager whose executions all succeed. -/
def tmOkW : ToolManager := ⟨fun _ _ => Except.ok "result"⟩

/-- Fixture: a tool manager whose executions all raise with message
"boom". -/
def tmErrW : ToolManager := ⟨fun _ _ => Except.error "boom"⟩

/-! ## Step lemmas for the round loop -/

/-- Zero remaining rounds: the loop body never runs and the run is
exhausted with the conversation unchanged. -/
theorem roundLoop_zero (svc : Nat → ApiResponse) (tools : Option (List String))
    (tm : Option ToolManager) (sys : String) (msgs : List Message)
    (calls : List ApiCall) (log : List (String × ToolInput)) :
    roundLoop svc tools tm sys 0 msgs calls log = (calls, log, LoopOutcome.exhausted msgs) :=
  rfl

/-- A round whose response signals tool use, with a tool manager present:
one call is recorded, the conversation is extended by `appendRound`, the
tool executions are logged, and the loop continues. -/
theorem roundLoop_succ_continue (svc : Nat → ApiResponse) (tools : Option (List String))
    (tm : ToolManager) (sys : String) (n : Nat) (msgs : List Message)
    (calls : List ApiCall) (log : List (String × ToolInput))
    (h : (svc calls.length).stop_reason = "tool_use") :
    roundLoop svc tools (some tm) sys (n + 1) msgs calls log =
      roundLoop svc tools (some tm) sys n
        (appendRound msgs (svc calls.length) tm)
        (calls ++ [mkCallRecord msgs sys tools (svc calls.length)])
        (log ++ toolInvocations (svc calls.length)) := by
  simp only [roundLoop]
  rw [if_pos h]

/-- A round whose response has a terminal stop-reason: one call is recorded
and the loop returns the extracted text at once. -/
theorem roundLoop_succ_terminal (svc : Nat → ApiResponse) (tools : Option (List String))
    (tm : Option ToolManager) (sys : String) (n : Nat) (msgs : List Message)
    (calls : List ApiCall) (log : List (String × ToolInput))
    (h : (svc calls.length).stop_reason ≠ "tool_use") :
    roundLoop svc tools tm sys (n + 1) msgs calls log =
      (calls ++ [mkCallRecord msgs sys tools (svc calls.length)], log,
       LoopOutcome.earlyReturn (extractTextFromResponse (svc calls.length))) := by
  simp only [roundLoop]
  rw [if_neg h]

/-- A round run without a tool manager: whatever the stop-reason, one call
is recorded and the loop returns the extracted text at once. -/
theorem roundLoop_succ_noManager (svc : Nat → ApiResponse) (tools : Option (List String))
    (sys : String) (n : Nat) (msgs : List Message)
    (calls : List ApiCall) (log : List (String × ToolInput)) :
    roundLoop svc tools none sys (n + 1) msgs calls log =
      (calls ++ [mkCallRecord msgs sys tools (svc calls.length)], log,
       LoopOutcome.earlyReturn (extractTextFromResponse (svc calls.length))) := by
  simp only [roundLoop]
  split <;> rfl

/-- The loop makes at most `fuel` further completion-service calls. -/
theorem roundLoop_calls_length_le (svc : Nat → ApiResponse) (tools : Option (List String))
    (tm : Option ToolManager) (sys : String) :
    ∀ (fuel : Nat) (msgs : List Message) (calls : List ApiCall)
      (log : List (String × ToolInput)),
      ((roundLoop svc tools tm sys fuel msgs calls log).1).length ≤ calls.length + fuel := by
  intro fuel
  induction fuel with
  | zero =>
      intro msgs calls log
      simp [roundLoop_zero]
  | succ n ih =>
      intro msgs calls log
      match tm with
      | none =>
          rw [roundLoop_succ_noManager]
          show (calls ++ [mkCallRecord msgs sys tools (svc calls.length)]).length ≤
            calls.length + (n + 1)
          simp only [List.length_append, List.length_cons, List.length_nil]
          omega
      | some tmgr =>
          by_cases h : (svc calls.length).stop_reason = "tool_use"
          · rw [roundLoop_succ_continue svc tools tmgr sys n msgs calls log h]
            have hx := ih (appendRound msgs (svc calls.length) tmgr)
              (calls ++ [mkCallRecord msgs sys tools (svc calls.length)])
              (log ++ toolInvocations (svc calls.length))
            have hy : (calls ++ [mkCallRecord msgs sys tools (svc calls.length)]).length =
                calls.length + 1 := by
              simp only [List.length_append, List.length_cons, List.length_nil]
            omega
          · rw [roundLoop_succ_terminal svc tools (some tmgr) sys n msgs calls log h]
            show (calls ++ [mkCallRecord msgs sys tools (svc calls.length)]).length ≤
              calls.length + (n + 1)
            simp only [List.length_append, List.length_cons, List.length_nil]
            omega

/-- Run characterization when the loop returns early from inside a round. -/
theorem generateResponse_earlyReturn (svc : Nat → ApiResponse) (q : String)
    (hist : Option String) (tools : Option (List String)) (tm : Option ToolManager)
    (R : Int) (calls : List ApiCall) (log : List (String × ToolInput))
    (r : Except ExtractError String)
    (hr : roundLoop svc tools tm (buildSystemContent hist) R.toNat (initialMessages q) [] [] =
      (calls, log, LoopOutcome.earlyReturn r)) :
    generateResponse svc q hist tools tm R = { calls := calls, toolExecs := log, result := r } := by
  simp only [generateResponse]
  rw [hr]

/-- Run characterization when the loop exhausts the round budget: the
final-synthesis call is appended to the trace and its text is the result. -/
theorem generateResponse_exhausted (svc : Nat → ApiResponse) (q : String)
    (hist : Option String) (tools : Option (List String)) (tm : Option ToolManager)
    (R : Int) (calls : List ApiCall) (log : List (String × ToolInput))
    (msgs : List Message)
    (hr : roundLoop svc tools tm (buildSystemContent hist) R.toNat (initialMessages q) [] [] =
      (calls, log, LoopOutcome.exhausted msgs)) :
    generateResponse svc q hist tools tm R =
      { calls := calls ++ [(finalSynthesis svc calls.length msgs (buildSystemContent hist)).1],
        toolExecs := log,
        result := Except.ok (finalSynthesis svc calls.length msgs (buildSystemContent hist)).2 } := by
  simp only [generateResponse]
  rw [hr]

/-- C1: for every round budget R ≥ 1 and every sequence of
completion-service responses and tool outcomes, one call to
`generate_response` terminates (the embedding is a total function of the
round budget) and makes at most R+1 completion-service calls. -/
theorem spec_c1_call_bound (svc : Nat → ApiResponse) (q : String) (hist : Option String)
    (tools : Option (List String)) (tm : Option ToolManager) (R : Int) (h : 1 ≤ R) :
    (generateResponse svc q hist tools tm R).calls.length ≤ R.toNat + 1 := by
  have hb := roundLoop_calls_length_le svc tools tm (buildSystemContent hist) R.toNat
    (initialMessages q) [] []
  rcases hr : roundLoop svc tools tm (buildSystemContent hist) R.toNat
    (initialMessages q) [] [] with ⟨calls, log, outcome⟩
  rw [hr] at hb
  simp only [List.length_nil, Nat.zero_add] at hb
  cases outcome with
  | earlyReturn r =>
      rw [generateResponse_earlyReturn svc q hist tools tm R calls log r hr]
      show calls.length ≤ R.toNat + 1
      omega
  | exhausted msgs =>
      rw [generateResponse_exhausted svc q hist tools tm R calls log msgs hr]
      show (calls ++
        [(finalSynthesis svc calls.length msgs (buildSystemContent hist)).1]).length ≤
        R.toNat + 1
      simp only [List.length_append, List.length_cons, List.length_nil]
      omega

/-- Witness for C1 at a concrete budget and response sequence. -/
theorem spec_c1_call_bound_witness :
    (1 : Int) ≤ 3 ∧
      (generateResponse svcTextW "q" none none none 3).calls.length ≤ (3 : Int).toNat + 1 :=
  ⟨by decide, spec_c1_call_bound svcTextW "q" none none none 3 (by decide)⟩

/-! ## Text extraction (C3) -/

/-- C3 counterexample: on a response with a terminal stop-reason and no
content blocks at all, extraction fails with the fixed no-content error,
not with an error carrying the stop-reason and the (empty) list of
content-block kinds as the claim states. -/
theorem spec_c3_cex :
    extractTextFromResponse { stop_reason := "end_turn", content := [] } =
      Except.error ExtractError.noContent
    ∧ (Except.error ExtractError.noContent : Except ExtractError String) ≠
        Except.error (ExtractError.noText "end_turn" []) := by
  decide

/-- C3 as amended: text extraction returns the text of the first plain-text
content block; when the response has no content blocks at all it fails with
the fixed no-content error (carrying neither stop-reason nor block kinds);
when content blocks exist but none is plain text it fails with the error
carrying the stop-reason and the list of content-block kinds present. -/
theorem spec_c3_extraction (response : ApiResponse) :
    (response.content = [] →
      extractTextFromResponse response = Except.error ExtractError.noContent)
    ∧ (∀ t, firstTextBlock response.content = some t →
        extractTextFromResponse response = Except.ok t)
    ∧ (response.content ≠ [] → firstTextBlock response.content = none →
        extractTextFromResponse response =
          Except.error (ExtractError.noText response.stop_reason (blockTypes response.content))) := by
  refine ⟨?_, ?_, ?_⟩
  · intro h
    simp [extractTextFromResponse, h]
  · intro t ht
    have hne : response.content ≠ [] := by
      intro h
      rw [h] at ht
      simp [firstTextBlock] at ht
    simp [extractTextFromResponse, hne, ht]
  · intro hne hnone
    simp [extractTextFromResponse, hne, hnone]

/-- Witness for C3 (amended) on a response holding only a tool-invocation
block. -/
theorem spec_c3_extraction_witness :
    extractTextFromResponse respToolW =
      Except.error (ExtractError.noText "tool_use" ["tool_use"]) :=
  (spec_c3_extraction respToolW).2.2 (by decide) (by decide)

/-! ## Tool execution (C4, C7) -/

/-- The tool-result entries produced for a content list carry the ids of its
tool-invocation-request blocks, in the same order. -/
theorem executeTools_ids (tm : ToolManager) :
    ∀ l : List ContentBlock,
      (l.filterMap (toolResultFor tm)).map ToolResult.tool_use_id = l.filterMap toolUseIdOf := by
  intro l
  induction l with
  | nil => rfl
  | cons b rest ih =>
      cases b with
      | text s => simpa [toolResultFor, toolUseIdOf] using ih
      | toolUse id name input => simp [toolResultFor, toolUseIdOf, ih]
      | other ty => simpa [toolResultFor, toolUseIdOf] using ih

/-- One tool-result entry exists per tool-invocation-request block. -/
theorem executeTools_length (tm : ToolManager) (l : List ContentBlock) :
    (l.filterMap (toolResultFor tm)).length = (l.filterMap toolUseIdOf).length := by
  conv_rhs => rw [← executeTools_ids tm l]
  rw [List.length_map]

/-- When the round produced at least one tool result, `appendRound` appends
exactly the assistant turn followed by the synthesized user turn carrying
those results. -/
theorem appendRound_eq_of_ne_nil (msgs : List Message) (response : ApiResponse)
    (tm : ToolManager) (h : executeTools response tm ≠ []) :
    appendRound msgs response tm =
      msgs ++ [{ role := "assistant", content := MessageContent.blocks response.content },
               { role := "user",
                 content := MessageContent.toolResults (executeTools response tm) }] := by
  have hfalse : (executeTools response tm).isEmpty = false := by
    rw [List.isEmpty_eq_false]
    exact h
  simp [appendRound, hfalse]

/-- C4: in a round whose response requests tool invocations (with a tool
manager supplied), the synthesized user turn appended by the loop is exactly
the tool-result list of that response: one entry per tool-invocation-request
block (non-request blocks produce none), in request order, each carrying the
originating invocation id. -/
theorem spec_c4_result_turn (response : ApiResponse) (tmgr : ToolManager)
    (svc : Nat → ApiResponse) (tools : Option (List String)) (sys : String)
    (fuel : Nat) (msgs : List Message) (calls : List ApiCall)
    (log : List (String × ToolInput))
    (hsvc : svc calls.length = response)
    (hstop : response.stop_reason = "tool_use")
    (hne : executeTools response tmgr ≠ []) :
    (executeTools response tmgr).map ToolResult.tool_use_id =
      response.content.filterMap toolUseIdOf
    ∧ (executeTools response tmgr).length = (response.content.filterMap toolUseIdOf).length
    ∧ roundLoop svc tools (some tmgr) sys (fuel + 1) msgs calls log =
        roundLoop svc tools (some tmgr) sys fuel
          (msgs ++ [{ role := "assistant", content := MessageContent.blocks response.content },
                    { role := "user",
                      content := MessageContent.toolResults (executeTools response tmgr) }])
          (calls ++ [mkCallRecord msgs sys tools response])
          (log ++ toolInvocations response) := by
  refine ⟨executeTools_ids tmgr response.content, executeTools_length tmgr response.content, ?_⟩
  rw [roundLoop_succ_continue svc tools tmgr sys fuel msgs calls log (by rw [hsvc]; exact hstop)]
  rw [hsvc, appendRound_eq_of_ne_nil msgs response tmgr hne]

/-- Witness for C4 on a concrete tool-use response. -/
theorem spec_c4_result_turn_witness :
    (executeTools respToolW tmOkW).map ToolResult.tool_use_id =
      respToolW.content.filterMap toolUseIdOf
    ∧ (executeTools respToolW tmOkW).length = (respToolW.content.filterMap toolUseIdOf).length
    ∧ roundLoop svcToolW none (some tmOkW) "" 1 [] [] [] =
        roundLoop svcToolW none (some tmOkW) "" 0
          [{ role := "assistant", content := MessageContent.blocks respToolW.content },
           { role := "user",
             content := MessageContent.toolResults (executeTools respToolW tmOkW) }]
          [mkCallRecord [] "" none respToolW]
          (toolInvocations respToolW) :=
  spec_c4_result_turn respToolW tmOkW svcToolW none "" 0 [] [] [] rfl rfl (by decide)

/-- C7: a tool-invocation request whose execution raises is converted into a
textual tool result "Error executing tool <name>: <message>", placed exactly
where a successful result would sit, and the round continues: the entries
for the surrounding blocks are still produced, one per request. -/
theorem spec_c7_tool_exception (tmgr : ToolManager) (id name : String) (input : ToolInput)
    (e sr : String) (pre post : List ContentBlock)
    (h : tmgr.execTool name input = Except.error e) :
    toolResultFor tmgr (ContentBlock.toolUse id name input) =
      some { type := "tool_result", tool_use_id := id,
             content := "Error executing tool " ++ name ++ ": " ++ e }
    ∧ executeTools
        { stop_reason := sr, content := pre ++ ContentBlock.toolUse id name input :: post } tmgr =
        executeTools { stop_reason := sr, content := pre } tmgr ++
          { type := "tool_result", tool_use_id := id,
            content := "Error executing tool " ++ name ++ ": " ++ e } ::
            executeTools { stop_reason := sr, content := post } tmgr
    ∧ (executeTools
        { stop_reason := sr, content := pre ++ ContentBlock.toolUse id name input :: post } tmgr).length =
        ((pre ++ ContentBlock.toolUse id name input :: post).filterMap toolUseIdOf).length := by
  have h1 : toolResultFor tmgr (ContentBlock.toolUse id name input) =
      some { type := "tool_result", tool_use_id := id,
             content := "Error executing tool " ++ name ++ ": " ++ e } := by
    simp [toolResultFor, h]
  refine ⟨h1, ?_, executeTools_length tmgr _⟩
  show (pre ++ ContentBlock.toolUse id name input :: post).filterMap (toolResultFor tmgr) = _
  rw [List.filterMap_append, List.filterMap_cons, h1]
  rfl

/-- Witness for C7 with a tool manager that always raises "boom". -/
theorem spec_c7_tool_exception_witness :
    toolResultFor tmErrW (ContentBlock.toolUse "a" "t1" []) =
      some { type := "tool_result", tool_use_id := "a",
             content := "Error executing tool " ++ "t1" ++ ": " ++ "boom" }
    ∧ executeTools
        { stop_reason := "tool_use",
          content := [ContentBlock.text "x"] ++ ContentBlock.toolUse "a" "t1" [] :: [] } tmErrW =
        executeTools { stop_reason := "tool_use", content := [ContentBlock.text "x"] } tmErrW ++
          { type := "tool_result", tool_use_id := "a",
            content := "Error executing tool " ++ "t1" ++ ": " ++ "boom" } ::
            executeTools { stop_reason := "tool_use", content := [] } tmErrW
    ∧ (executeTools
        { stop_reason := "tool_use",
          content := [ContentBlock.text "x"] ++ ContentBlock.toolUse "a" "t1" [] :: [] } tmErrW).length =
        (([ContentBlock.text "x"] ++ ContentBlock.toolUse "a" "t1" [] :: []).filterMap toolUseIdOf).length :=
  spec_c7_tool_exception tmErrW "a" "t1" [] "boom" "tool_use" [ContentBlock.text "x"] [] rfl

/-! ## Early exit, final synthesis, degenerate budgets (C6, C8, C9, C10) -/

/-- C6: when the first response has a terminal stop-reason, the run makes
exactly one completion-service call, executes no tool, and returns the
extracted text of that response, for every round budget R ≥ 1. -/
theorem spec_c6_terminal_first_round (svc : Nat → ApiResponse) (q : String)
    (hist : Option String) (tools : Option (List String)) (tm : Option ToolManager)
    (R : Int) (h1 : 1 ≤ R) (h2 : (svc 0).stop_reason ≠ "tool_use") :
    generateResponse svc q hist tools tm R =
      { calls := [mkCallRecord (initialMessages q) (buildSystemContent hist) tools (svc 0)],
        toolExecs := [],
        result := extractTextFromResponse (svc 0) } := by
  obtain ⟨n, hn⟩ : ∃ n, R.toNat = n + 1 := ⟨R.toNat - 1, by omega⟩
  have hr := roundLoop_succ_terminal svc tools tm (buildSystemContent hist) n
    (initialMessages q) [] [] h2
  apply generateResponse_earlyReturn
  rw [hn]
  exact hr

/-- Witness for C6: a terminal first response under budget 2. -/
theorem spec_c6_terminal_first_round_witness :
    (1 : Int) ≤ 2 ∧
      generateResponse svcTextW "q" none none none 2 =
        { calls := [mkCallRecord (initialMessages "q") (buildSystemContent none) none (svcTextW 0)],
          toolExecs := [],
          result := extractTextFromResponse (svcTextW 0) } :=
  ⟨by decide, spec_c6_terminal_first_round svcTextW "q" none none none 2 (by decide) (by decide)⟩

/-- C8: when the round budget is exhausted without a final answer, exactly
one additional completion-service call is made, its request omits the tools
and tool-choice parameters, and if its response yields no extractable text
the fixed user-facing fallback message is returned instead of an error. -/
theorem spec_c8_exhausted_fallback (svc : Nat → ApiResponse) (q : String)
    (hist : Option String) (tools : Option (List String)) (tm : Option ToolManager)
    (R : Int) (calls : List ApiCall) (log : List (String × ToolInput))
    (msgs : List Message) (err : ExtractError)
    (hr : roundLoop svc tools tm (buildSystemContent hist) R.toNat (initialMessages q) [] [] =
      (calls, log, LoopOutcome.exhausted msgs)) :
    generateResponse svc q hist tools tm R =
      { calls := calls ++ [(finalSynthesis svc calls.length msgs (buildSystemContent hist)).1],
        toolExecs := log,
        result := Except.ok (finalSynthesis svc calls.length msgs (buildSystemContent hist)).2 }
    ∧ (finalSynthesis svc calls.length msgs (buildSystemContent hist)).1.toolsSent = none
    ∧ (finalSynthesis svc calls.length msgs (buildSystemContent hist)).1.toolChoice = none
    ∧ (extractTextFromResponse (svc calls.length) = Except.error err →
        (finalSynthesis svc calls.length msgs (buildSystemContent hist)).2 = fallbackMessage) := by
  refine ⟨generateResponse_exhausted svc q hist tools tm R calls log msgs hr, rfl, rfl, ?_⟩
  intro he
  show synthText (svc calls.length) = fallbackMessage
  simp [synthText, he]

/-- Witness for C8: budget 0 exhausts at once and the final response holds
no content blocks, so the fallback message is returned. -/
theorem spec_c8_exhausted_fallback_witness :
    generateResponse svcEmptyToolW "q" none none none 0 =
      { calls := [] ++
          [(finalSynthesis svcEmptyToolW (List.length ([] : List ApiCall)) (initialMessages "q")
              (buildSystemContent none)).1],
        toolExecs := [],
        result := Except.ok
          (finalSynthesis svcEmptyToolW (List.length ([] : List ApiCall)) (initialMessages "q")
            (buildSystemContent none)).2 }
    ∧ (finalSynthesis svcEmptyToolW (List.length ([] : List ApiCall)) (initialMessages "q")
        (buildSystemContent none)).1.toolsSent = none
    ∧ (finalSynthesis svcEmptyToolW (List.length ([] : List ApiCall)) (initialMessages "q")
        (buildSystemContent none)).1.toolChoice = none
    ∧ (extractTextFromResponse (svcEmptyToolW (List.length ([] : List ApiCall))) =
          Except.error ExtractError.noContent →
        (finalSynthesis svcEmptyToolW (List.length ([] : List ApiCall)) (initialMessages "q")
          (buildSystemContent none)).2 = fallbackMessage) :=
  spec_c8_exhausted_fallback svcEmptyToolW "q" none none none 0 [] [] (initialMessages "q")
    ExtractError.noContent rfl

/-- C9: when a response signals tool use but no tool manager was supplied,
the run makes exactly one call, executes no tool, appends no turn, and
returns the ordinary text extraction of that response (the text of its
first text block, or the extraction error when only tool blocks are
present). -/
theorem spec_c9_no_tool_manager (svc : Nat → ApiResponse) (q : String)
    (hist : Option String) (tools : Option (List String)) (R : Int)
    (h1 : 1 ≤ R) (h2 : (svc 0).stop_reason = "tool_use") :
    generateResponse svc q hist tools none R =
      { calls := [mkCallRecord (initialMessages q) (buildSystemContent hist) tools (svc 0)],
        toolExecs := [],
        result := extractTextFromResponse (svc 0) } := by
  obtain ⟨n, hn⟩ : ∃ n, R.toNat = n + 1 := ⟨R.toNat - 1, by omega⟩
  have hr := roundLoop_succ_noManager svc tools (buildSystemContent hist) n
    (initialMessages q) [] []
  apply generateResponse_earlyReturn
  rw [hn]
  exact hr

/-- Witness for C9: a tool-use response with no tool manager supplied. -/
theorem spec_c9_no_tool_manager_witness :
    (1 : Int) ≤ 1 ∧
      generateResponse svcToolW "q" none none none 1 =
        { calls := [mkCallRecord (initialMessages "q") (buildSystemContent none) none (svcToolW 0)],
          toolExecs := [],
          result := extractTextFromResponse (svcToolW 0) } :=
  ⟨by decide, spec_c9_no_tool_manager svcToolW "q" none none 1 (by decide) rfl⟩

/-- C10: with a non-positive round budget the round loop never runs: exactly
one completion-service call is made, without tools or tool-choice, on the
conversation holding only the initial user query, and its synthesized text
(extracted text or the fixed fallback) is returned. -/
theorem spec_c10_nonpositive_budget (svc : Nat → ApiResponse) (q : String)
    (hist : Option String) (tools : Option (List String)) (tm : Option ToolManager)
    (R : Int) (h : R ≤ 0) :
    generateResponse svc q hist tools tm R =
      { calls := [{ messages := initialMessages q, system := buildSystemContent hist,
                    toolsSent := none, toolChoice := none, response := svc 0 }],
        toolExecs := [],
        result := Except.ok (synthText (svc 0)) } := by
  have hn : R.toNat = 0 := by omega
  have h2 := generateResponse_exhausted svc q hist tools tm R [] [] (initialMessages q)
    (by rw [hn]; exact roundLoop_zero svc tools tm (buildSystemContent hist) (initialMessages q) [] [])
  rw [h2]
  rfl

/-- Witness for C10 at budget -3. -/
theorem spec_c10_nonpositive_budget_witness :
    (-3 : Int) ≤ 0 ∧
      generateResponse svcTextW "q" none none none (-3) =
        { calls := [{ messages := initialMessages "q", system := buildSystemContent none,
                      toolsSent := none, toolChoice := none, response := svcTextW 0 }],
          toolExecs := [],
          result := Except.ok (synthText (svcTextW 0)) } :=
  ⟨by decide, spec_c10_nonpositive_budget svcTextW "q" none none none (-3) (by decide)⟩

/-! ## Full tool-use runs (C5) -/

/-- When the response of every remaining round signals tool use (with a non-empty
tools list and a tool manager), the loop spends its whole budget: it records
one call per round, each carrying the tool definitions and the automatic
tool-choice directive, and exhausts. -/
theorem roundLoop_all_tooluse (svc : Nat → ApiResponse) (ts : List String) (tmgr : ToolManager)
    (sys : String) (hts : ts ≠ []) :
    ∀ (fuel : Nat) (msgs : List Message) (calls : List ApiCall)
      (log : List (String × ToolInput)),
      (∀ i, i < fuel → (svc (calls.length + i)).stop_reason = "tool_use") →
      ∃ newCalls msgs2 log2,
        roundLoop svc (some ts) (some tmgr) sys fuel msgs calls log =
          (calls ++ newCalls, log2, LoopOutcome.exhausted msgs2) ∧
        newCalls.length = fuel ∧
        ∀ c ∈ newCalls, c.toolsSent = some ts ∧ c.toolChoice = some "auto" := by
  intro fuel
  induction fuel with
  | zero =>
      intro msgs calls log _
      exact ⟨[], msgs, log, by simp [roundLoop_zero], rfl, by simp⟩
  | succ n ih =>
      intro msgs calls log H
      have hstop : (svc calls.length).stop_reason = "tool_use" := by
        have h0 := H 0 (Nat.succ_pos n)
        simpa using h0
      rw [roundLoop_succ_continue svc (some ts) tmgr sys n msgs calls log hstop]
      obtain ⟨newCalls, msgs2, log2, heq, hlen, hall⟩ :=
        ih (appendRound msgs (svc calls.length) tmgr)
          (calls ++ [mkCallRecord msgs sys (some ts) (svc calls.length)])
          (log ++ toolInvocations (svc calls.length))
          (by
            intro i hi
            have hl : (calls ++ [mkCallRecord msgs sys (some ts) (svc calls.length)]).length =
                calls.length + 1 := by
              simp
            rw [hl]
            have harith : calls.length + 1 + i = calls.length + (i + 1) := by omega
            rw [harith]
            exact H (i + 1) (by omega))
      refine ⟨mkCallRecord msgs sys (some ts) (svc calls.length) :: newCalls, msgs2, log2,
        ?_, ?_, ?_⟩
      · rw [heq]
        congr 1
        simp [List.append_assoc]
      · simp [hlen]
      · intro c hc
        rcases List.mem_cons.mp hc with h | h
        · have hie : ts.isEmpty = false := by
            rw [List.isEmpty_eq_false]
            exact hts
          subst h
          constructor <;> simp [mkCallRecord, toolsTruthy, hie]
        · exact hall c h

/-- C5: if a non-empty tools list and a tool manager are supplied and every
response in rounds 1..R signals tool use, the run makes exactly R calls
carrying the tool definitions and the automatic tool-choice directive plus
exactly one final-synthesis call carrying neither (R+1 calls total), and the
returned answer is the synthesized text of that final call. -/
theorem spec_c5_full_budget (svc : Nat → ApiResponse) (q : String)
    (hist : Option String) (ts : List String) (tmgr : ToolManager) (R : Int)
    (hts : ts ≠ []) (hR : 1 ≤ R)
    (H : ∀ i, i < R.toNat → (svc i).stop_reason = "tool_use") :
    callsToolParams (generateResponse svc q hist (some ts) (some tmgr) R) =
      List.replicate R.toNat (some ts, some "auto") ++ [(none, none)]
    ∧ (generateResponse svc q hist (some ts) (some tmgr) R).result =
        Except.ok (synthText (svc R.toNat)) := by
  obtain ⟨newCalls, msgs2, log2, heq, hlen, hall⟩ :=
    roundLoop_all_tooluse svc ts tmgr (buildSystemContent hist) hts R.toNat
      (initialMessages q) [] [] (by intro i hi; simpa using H i hi)
  rw [List.nil_append] at heq
  have hrun := generateResponse_exhausted svc q hist (some ts) (some tmgr) R newCalls log2
    msgs2 heq
  rw [hrun]
  constructor
  · show (newCalls ++
        [(finalSynthesis svc newCalls.length msgs2 (buildSystemContent hist)).1]).map
      (fun c => (c.toolsSent, c.toolChoice)) = _
    rw [List.map_append]
    congr 1
    apply List.eq_replicate_iff.mpr
    constructor
    · rw [List.length_map]
      exact hlen
    · intro b hb
      obtain ⟨c, hc, hbc⟩ := List.mem_map.mp hb
      obtain ⟨hc1, hc2⟩ := hall c hc
      rw [← hbc, hc1, hc2]
  · show Except.ok (finalSynthesis svc newCalls.length msgs2 (buildSystemContent hist)).2 =
      Except.ok (synthText (svc R.toNat))
    rw [hlen]
    rfl

/-- Witness for C5: two tool-use rounds under budget 2. -/
theorem spec_c5_full_budget_witness :
    callsToolParams (generateResponse svcToolW "q" none (some ["t"]) (some tmOkW) 2) =
      List.replicate (2 : Int).toNat (some ["t"], some "auto") ++ [(none, none)]
    ∧ (generateResponse svcToolW "q" none (some ["t"]) (some tmOkW) 2).result =
        Except.ok (synthText (svcToolW (2 : Int).toNat)) :=
  spec_c5_full_budget svcToolW "q" none ["t"] tmOkW 2 (by decide) (by decide)
    (fun _ _ => rfl)

/-! ## Turn alternation (C2) -/

/-- C2 counterexample: with responses whose stop-reason is tool_use but
which contain zero tool-invocation-request blocks, the loop appends
assistant turns without any synthesized user turn between them: the request
conversation of the third completion-service call of this concrete run
contains two consecutive assistant turns. -/
theorem spec_c2_cex :
    callsAssistantCheck
      (generateResponse svcEmptyToolW "q" none (some ["toolDef"]) (some tmOkW) 2) =
      [true, true, false] := by
  decide

/-- Crossing one turn flips the expected parity. -/
theorem parityFlip_succ (b : Bool) (n : Nat) : parityFlip b (n + 1) = parityFlip (!b) n := by
  by_cases h : n % 2 = 0
  · have h1 : (n + 1) % 2 = 1 := by omega
    simp [parityFlip, h, h1]
  · have h0 : n % 2 = 1 := by omega
    have h1 : (n + 1) % 2 = 0 := by omega
    simp [parityFlip, h0, h1]

/-- Alternation of an appended conversation splits at the junction. -/
theorem alternatingFrom_append :
    ∀ (ms : List Message) (b : Bool) (rest : List Message),
      alternatingFrom b (ms ++ rest) =
        (alternatingFrom b ms && alternatingFrom (parityFlip b ms.length) rest) := by
  intro ms
  induction ms with
  | nil =>
      intro b rest
      simp [alternatingFrom, parityFlip]
  | cons m ms ih =>
      intro b rest
      show ((m.role == roleOf b) && alternatingFrom (!b) (ms ++ rest)) = _
      rw [ih (!b) rest]
      show _ = (((m.role == roleOf b) && alternatingFrom (!b) ms) &&
        alternatingFrom (parityFlip b (ms.length + 1)) rest)
      rw [parityFlip_succ, Bool.and_assoc]

/-- A content list holding a tool-invocation-request block yields a
non-empty tool-results list. -/
theorem filterMap_toolResultFor_ne_nil (tm : ToolManager) :
    ∀ l : List ContentBlock, hasToolUseBlock l = true →
      l.filterMap (toolResultFor tm) ≠ [] := by
  intro l
  induction l with
  | nil =>
      intro h
      simp [hasToolUseBlock] at h
  | cons b rest ih =>
      intro h
      cases b with
      | text s =>
          have h2 : hasToolUseBlock rest = true := by
            simpa [hasToolUseBlock] using h
          simpa [toolResultFor, List.filterMap_cons] using ih h2
      | toolUse id name input =>
          simp [toolResultFor, List.filterMap_cons]
      | other ty =>
          have h2 : hasToolUseBlock rest = true := by
            simpa [hasToolUseBlock] using h
          simpa [toolResultFor, List.filterMap_cons] using ih h2

/-- A tool round with a non-empty results list keeps the conversation
alternating and of odd length (it appends an assistant turn then a user
turn). -/
theorem appendRound_alternating (msgs : List Message) (response : ApiResponse)
    (tm : ToolManager) (hmsgs : alternatingFrom true msgs = true)
    (hlen : msgs.length % 2 = 1) (hne : executeTools response tm ≠ []) :
    alternatingFrom true (appendRound msgs response tm) = true ∧
      (appendRound msgs response tm).length % 2 = 1 := by
  rw [appendRound_eq_of_ne_nil msgs response tm hne]
  constructor
  · rw [alternatingFrom_append]
    have hp : parityFlip true msgs.length = false := by
      simp [parityFlip, hlen]
    rw [hmsgs, hp]
    rfl
  · rw [List.length_append]
    simp only [List.length_cons, List.length_nil]
    omega

/-- Loop invariant: provided every tool-use-stopped response contains at
least one tool-invocation-request block, the request conversation of every
recorded call alternates starting from a user turn, and the exhausted
conversation does too (with odd length). -/
theorem roundLoop_alternating (svc : Nat → ApiResponse) (tools : Option (List String))
    (tm : Option ToolManager) (sys : String)
    (H : ∀ i, (svc i).stop_reason = "tool_use" → hasToolUseBlock (svc i).content = true) :
    ∀ (fuel : Nat) (msgs : List Message) (calls : List ApiCall)
      (log : List (String × ToolInput)),
      alternatingFrom true msgs = true → msgs.length % 2 = 1 →
      (∀ c ∈ calls, alternatingFrom true c.messages = true) →
      (∀ c ∈ (roundLoop svc tools tm sys fuel msgs calls log).1,
          alternatingFrom true c.messages = true) ∧
      (∀ msgs2, (roundLoop svc tools tm sys fuel msgs calls log).2.2 =
          LoopOutcome.exhausted msgs2 →
        alternatingFrom true msgs2 = true ∧ msgs2.length % 2 = 1) := by
  intro fuel
  induction fuel with
  | zero =>
      intro msgs calls log hmsgs hlen hcalls
      rw [roundLoop_zero]
      refine ⟨hcalls, ?_⟩
      intro msgs2 h2
      injection h2 with h3
      subst h3
      exact ⟨hmsgs, hlen⟩
  | succ n ih =>
      intro msgs calls log hmsgs hlen hcalls
      match tm with
      | none =>
          rw [roundLoop_succ_noManager]
          refine ⟨?_, ?_⟩
          · intro c hc
            rcases List.mem_append.mp hc with h | h
            · exact hcalls c h
            · rw [List.mem_singleton] at h
              subst h
              exact hmsgs
          · intro msgs2 h2
            simp at h2
      | some tmgr =>
          by_cases hstop : (svc calls.length).stop_reason = "tool_use"
          · rw [roundLoop_succ_continue svc tools tmgr sys n msgs calls log hstop]
            have hne := filterMap_toolResultFor_ne_nil tmgr (svc calls.length).content
              (H calls.length hstop)
            obtain ⟨ha1, ha2⟩ := appendRound_alternating msgs (svc calls.length) tmgr
              hmsgs hlen hne
            exact ih (appendRound msgs (svc calls.length) tmgr)
              (calls ++ [mkCallRecord msgs sys tools (svc calls.length)])
              (log ++ toolInvocations (svc calls.length)) ha1 ha2
              (by
                intro c hc
                rcases List.mem_append.mp hc with h | h
                · exact hcalls c h
                · rw [List.mem_singleton] at h
                  subst h
                  exact hmsgs)
          · rw [roundLoop_succ_terminal svc tools (some tmgr) sys n msgs calls log hstop]
            refine ⟨?_, ?_⟩
            · intro c hc
              rcases List.mem_append.mp hc with h | h
              · exact hcalls c h
              · rw [List.mem_singleton] at h
                subst h
                exact hmsgs
            · intro msgs2 h2
              simp at h2

/-- C2 as amended: the conversation built by the loop strictly alternates
user and assistant turns provided every tool-use-stopped response it
processes contains at least one tool-invocation-request block; when such a
response carries zero request blocks, the loop appends the assistant turn
without any synthesized user turn (see the counterexample), so consecutive
assistant turns can occur. -/
theorem spec_c2_alternation (svc : Nat → ApiResponse) (q : String)
    (hist : Option String) (tools : Option (List String)) (tm : Option ToolManager)
    (R : Int)
    (H : ∀ i, (svc i).stop_reason = "tool_use" → hasToolUseBlock (svc i).content = true) :
    allCallsAlternate (generateResponse svc q hist tools tm R) = true := by
  have hinit : alternatingFrom true (initialMessages q) = true := rfl
  have hlen1 : (initialMessages q).length % 2 = 1 := rfl
  have hmain := roundLoop_alternating svc tools tm (buildSystemContent hist) H R.toNat
    (initialMessages q) [] [] hinit hlen1 (by intro c hc; simp at hc)
  rcases hr : roundLoop svc tools tm (buildSystemContent hist) R.toNat
    (initialMessages q) [] [] with ⟨calls, log, outcome⟩
  rw [hr] at hmain
  obtain ⟨hcallsAll, hexh⟩ := hmain
  cases outcome with
  | earlyReturn r =>
      rw [generateResponse_earlyReturn svc q hist tools tm R calls log r hr]
      show (calls.all fun c => alternatingFrom true c.messages) = true
      rw [List.all_eq_true]
      exact fun c hc => hcallsAll c hc
  | exhausted msgs =>
      rw [generateResponse_exhausted svc q hist tools tm R calls log msgs hr]
      show ((calls ++
        [(finalSynthesis svc calls.length msgs (buildSystemContent hist)).1]).all
          fun c => alternatingFrom true c.messages) = true
      rw [List.all_eq_true]
      intro c hc
      rcases List.mem_append.mp hc with h | h
      · exact hcallsAll c h
      · rw [List.mem_singleton] at h
        subst h
        exact (hexh msgs rfl).1

/-- Witness for C2 (amended) on a run whose single response is terminal. -/
theorem spec_c2_alternation_witness :
    allCallsAlternate (generateResponse svcTextW "q" none none none 2) = true :=
  spec_c2_alternation svcTextW "q" none none none 2
    (fun _ h => by simp [svcTextW, respTextW] at h)
